import Mathlib

/-!
# Verification of the PyNomaly `LocalOutlierProbability` pipeline

A shallow embedding of `PyNomaly/loop.py` (version 0.1.5) over the real
numbers, together with theorems settling the specified properties of the
pipeline.

Modelling conventions:
* numpy float arrays are modelled as `List ℝ` / `List (List ℝ)`; machine
  floats are modelled by real arithmetic (no rounding).  Lean's conventions
  `x / 0 = 0` and `Real.sqrt` of a negative number being `0` replace the
  IEEE `inf`/NaN special values; for every run examined by the theorems
  below the two semantics agree on the produced scores.
* `sys.exit` (the library's failure mode, triggered from `__init__`,
  `_distances` and `_ssd`) is modelled by returning `none`.
* `_distances` checks `data_store[:, 1].any()` on a store created with
  `np.empty`, so on a partially filled store the check reads uninitialized
  memory; observable halting is nevertheless deterministic: the run dies
  (either at that check or at the `ssd == 0.0` check in `_ssd`) exactly
  when some cluster's context distances are all zero, which is how
  `Run.halts` is defined.
-/

noncomputable section

namespace PyNomaly

open MeasureTheory intervalIntegral

/-! ## The Gaussian error function

`loop.py` imports `erf` from `math`; we define it by its integral
representation `erf x = 2/√π · ∫ t in 0..x, exp (-t²)`. -/

/-- The Gaussian error function, `math.erf` in the source. -/
def erf (x : ℝ) : ℝ := 2 / Real.sqrt Real.pi * ∫ t in (0:ℝ)..x, Real.exp (-t ^ 2)

lemma continuous_gaussian : Continuous fun t : ℝ => Real.exp (-t ^ 2) :=
  Real.continuous_exp.comp (continuous_pow 2).neg

lemma erf_zero : erf 0 = 0 := by
  simp [erf]

lemma erf_nonneg {x : ℝ} (hx : 0 ≤ x) : 0 ≤ erf x := by
  have h1 : (0:ℝ) ≤ 2 / Real.sqrt Real.pi :=
    div_nonneg (by norm_num) (Real.sqrt_nonneg _)
  have h2 : (0:ℝ) ≤ ∫ t in (0:ℝ)..x, Real.exp (-t ^ 2) :=
    intervalIntegral.integral_nonneg hx (fun u _ => (Real.exp_pos _).le)
  exact mul_nonneg h1 h2

lemma erf_nonpos {x : ℝ} (hx : x ≤ 0) : erf x ≤ 0 := by
  have h1 : (0:ℝ) ≤ 2 / Real.sqrt Real.pi :=
    div_nonneg (by norm_num) (Real.sqrt_nonneg _)
  have h2 : (0:ℝ) ≤ ∫ t in x..(0:ℝ), Real.exp (-t ^ 2) :=
    intervalIntegral.integral_nonneg hx (fun u _ => (Real.exp_pos _).le)
  have h3 : (∫ t in (0:ℝ)..x, Real.exp (-t ^ 2)) ≤ 0 := by
    rw [intervalIntegral.integral_symm]
    linarith
  exact mul_nonpos_of_nonneg_of_nonpos h1 h3

lemma erf_pos {x : ℝ} (hx : 0 < x) : 0 < erf x := by
  have h1 : (0:ℝ) < 2 / Real.sqrt Real.pi :=
    div_pos (by norm_num) (Real.sqrt_pos.mpr Real.pi_pos)
  have h2 : (0:ℝ) < ∫ t in (0:ℝ)..x, Real.exp (-t ^ 2) :=
    intervalIntegral_pos_of_pos_on
      (continuous_gaussian.intervalIntegrable 0 x)
      (fun u _ => Real.exp_pos _) hx
  exact mul_pos h1 h2

lemma erf_le_one (x : ℝ) : erf x ≤ 1 := by
  rcases le_or_lt x 0 with hx | hx
  · exact (erf_nonpos hx).trans zero_le_one
  · have hint : (∫ t in (0:ℝ)..x, Real.exp (-t ^ 2)) ≤ Real.sqrt Real.pi / 2 := by
      have hrw : (∫ t in (0:ℝ)..x, Real.exp (-t ^ 2))
          = ∫ t in Set.Ioc (0:ℝ) x, Real.exp (-1 * t ^ 2) := by
        rw [intervalIntegral.integral_of_le hx.le]
        simp
      have hioi : (∫ t in Set.Ioi (0:ℝ), Real.exp (-1 * t ^ 2))
          = Real.sqrt Real.pi / 2 := by
        simpa using integral_gaussian_Ioi 1
      have hmono : (∫ t in Set.Ioc (0:ℝ) x, Real.exp (-1 * t ^ 2))
          ≤ ∫ t in Set.Ioi (0:ℝ), Real.exp (-1 * t ^ 2) := by
        refine setIntegral_mono_set
          ((integrable_exp_neg_mul_sq one_pos).integrableOn)
          (Filter.Eventually.of_forall fun t => (Real.exp_pos _).le)
          (HasSubset.Subset.eventuallyLE Set.Ioc_subset_Ioi_self)
      rw [hrw]
      exact hmono.trans hioi.le
    have hpi : 0 < Real.sqrt Real.pi := Real.sqrt_pos.mpr Real.pi_pos
    have : erf x ≤ 2 / Real.sqrt Real.pi * (Real.sqrt Real.pi / 2) := by
      exact mul_le_mul_of_nonneg_left hint
        (div_nonneg (by norm_num) (Real.sqrt_nonneg _))
    calc erf x ≤ 2 / Real.sqrt Real.pi * (Real.sqrt Real.pi / 2) := this
    _ = 1 := by field_simp

/-! ## The data model

`data` is the n×d feature matrix, `cluster_labels` the optional cluster
assignment (`None` modelled as `Option.none`). -/

/-- `d`, the number of features: the length of a row of the (rectangular)
data matrix (`d.shape[2]` of the difference tensor in `_distances`). -/
def numFeatures (data : List (List ℝ)) : ℕ := (data.headD []).length

/-- `_cluster_labels` (loop.py:112-116): the given labels, or `[0] * len(data)`
when `cluster_labels is None`. -/
def effLabels (data : List (List ℝ)) (cluster_labels : Option (List ℤ)) : List ℤ :=
  cluster_labels.getD (List.replicate data.length 0)

/-- `np.where(self._cluster_labels() == cluster_id)` (loop.py:120): the
ascending list of observation indices carrying label `c`. -/
def clusterIndices (lbls : List ℤ) (c : ℤ) : List ℕ :=
  (List.range lbls.length).filter fun i => lbls.getD i 0 = c

/-- `points_vector = self.data.take(indices, axis=0)` (loop.py:124-125): the
rows of the cluster's members. -/
def pointsVector (data : List (List ℝ)) (idxs : List ℕ) : List (List ℝ) :=
  idxs.map fun j => data.getD j []

/-- Entry `(i, vec, f)` of `d = np.tril(points_vector[:, np.newaxis] -
points_vector, -1)` (loop.py:126).  `np.tril` acts on the *last two* axes of
the 3-D difference tensor, so for the member pair `(i, vec)` the feature `f`
survives exactly when `f ≤ vec - 1`. -/
def trilDiff (points : List (List ℝ)) (i vec f : ℕ) : ℝ :=
  if f + 1 ≤ vec then (points.getD i []).getD f 0 - (points.getD vec []).getD f 0 else 0

/-- Entry `i` of `np.mean(np.sqrt(d[:, vec] ** 2), axis=1)` (loop.py:128):
the mean over features of `√((d i vec f)²)`. -/
def rowDist (dim : ℕ) (points : List (List ℝ)) (vec i : ℕ) : ℝ :=
  (((List.range dim).map fun f => Real.sqrt (trilDiff points i vec f ^ 2)).sum) / dim

/-- `np.sort(np.mean(np.sqrt(d[:, vec] ** 2), axis=1))[1:self.n_neighbors + 1]`
(loop.py:128): sort member `vec`'s row of the distance tensor ascending and
keep the slice `[1 : n+1]`. -/
def neighborhoodDistances (dim : ℕ) (points : List (List ℝ)) (n vec : ℕ) : List ℝ :=
  ((List.insertionSort (· ≤ ·)
    ((List.range points.length).map (rowDist dim points vec))).drop 1).take n

/-- `neighborhood_dist = np.mean(neighborhood_distances)` (loop.py:129). -/
def contextDistance (dim : ℕ) (points : List (List ℝ)) (n vec : ℕ) : ℝ :=
  (neighborhoodDistances dim points n vec).sum
    / (neighborhoodDistances dim points n vec).length

/-- `closest_neighbor_distance = neighborhood_distances[1:2]` (loop.py:130):
the element at position 1 of the already-sliced sorted list. -/
def closestNeighborDistance (dim : ℕ) (points : List (List ℝ)) (n vec : ℕ) : ℝ :=
  (neighborhoodDistances dim points n vec).getD 1 0

/-- One run of the pipeline: the validated inputs `fit` operates on. -/
structure Run where
  data : List (List ℝ)
  extent : ℝ
  n_neighbors : ℕ
  labels : List ℤ

namespace Run

/-- Context distance of the member at position `pos` of the cluster whose
member indices are `idxs` (the value written to `data_store[idxs[pos], 1]`
at loop.py:131). -/
def cd (r : Run) (idxs : List ℕ) (pos : ℕ) : ℝ :=
  contextDistance (numFeatures r.data) (pointsVector r.data idxs) r.n_neighbors pos

/-- `_ssd` (loop.py:137-150): per-cluster sum of squared context distances. -/
def ssd (r : Run) (idxs : List ℕ) : ℝ :=
  ((List.range idxs.length).map fun pos => r.cd idxs pos ^ 2).sum

/-- `_standard_distance` (loop.py:84-87): `√(ssd / |cd|)`. -/
def stdDist (r : Run) (idxs : List ℕ) (pos : ℕ) : ℝ :=
  Real.sqrt (r.ssd idxs / |r.cd idxs pos|)

/-- `_prob_set_distance` (loop.py:90-91): `1 / (extent · stdDist)`. -/
def psd (r : Run) (idxs : List ℕ) (pos : ℕ) : ℝ :=
  1 / (r.extent * r.stdDist idxs pos)

/-- `_prob_set_distances_ev` (loop.py:160-169): cluster mean of `psd`. -/
def evPsd (r : Run) (idxs : List ℕ) : ℝ :=
  ((List.range idxs.length).map (r.psd idxs)).sum / idxs.length

/-- `_prob_outlier_factor` (loop.py:93-95): `psd / evPsd - 1`. -/
def plof (r : Run) (idxs : List ℕ) (pos : ℕ) : ℝ :=
  r.psd idxs pos / r.evPsd idxs - 1

/-- `_prob_local_outlier_factors_ev` (loop.py:176-187): cluster mean of
squared `plof`. -/
def evPlofSq (r : Run) (idxs : List ℕ) : ℝ :=
  ((List.range idxs.length).map fun pos => r.plof idxs pos ^ 2).sum / idxs.length

/-- `_norm_prob_outlier_factor` (loop.py:97-99): `extent · √(evPlofSq)`. -/
def nplof (r : Run) (idxs : List ℕ) : ℝ :=
  r.extent * Real.sqrt (r.evPlofSq idxs)

/-- `_local_outlier_probability` (loop.py:101-104):
`max(0, erf (plof / (nplof · √2)))`. -/
def score (r : Run) (idxs : List ℕ) (pos : ℕ) : ℝ :=
  max 0 (erf (r.plof idxs pos / (r.nplof idxs * Real.sqrt 2)))

/-- The cluster label of observation `i`. -/
def label (r : Run) (i : ℕ) : ℤ := r.labels.getD i 0

/-- The member-index list of the cluster observation `i` belongs to. -/
def members (r : Run) (i : ℕ) : List ℕ := clusterIndices r.labels (r.label i)

/-- The position of observation `i` inside its cluster (`indices[0][vec] = i`
at loop.py:131). -/
def pos (r : Run) (i : ℕ) : ℕ := (r.members i).indexOf i

/-- Final score of observation `i` (`data_store[i, 10]`). -/
def scoreAt (r : Run) (i : ℕ) : ℝ := r.score (r.members i) (r.pos i)

/-- Context distance of observation `i` (`data_store[i, 1]`). -/
def cdAt (r : Run) (i : ℕ) : ℝ := r.cd (r.members i) (r.pos i)

/-- `closest_neighbor_distance` of observation `i` (`data_store[i, 2]`). -/
def closestAt (r : Run) (i : ℕ) : ℝ :=
  closestNeighborDistance (numFeatures r.data) (pointsVector r.data (r.members i))
    r.n_neighbors (r.pos i)

/-- `prob_set_distance` of observation `i` (`data_store[i, 5]`). -/
def psdAt (r : Run) (i : ℕ) : ℝ := r.psd (r.members i) (r.pos i)

/-- `ev_prob_set_distance` of observation `i`'s cluster (`data_store[i, 6]`). -/
def evPsdAt (r : Run) (i : ℕ) : ℝ := r.evPsd (r.members i)

/-- `plof` of observation `i` (`data_store[i, 7]`). -/
def plofAt (r : Run) (i : ℕ) : ℝ := r.plof (r.members i) (r.pos i)

/-- `ev_plof_sq` of observation `i`'s cluster (`data_store[i, 8]`). -/
def evPlofSqAt (r : Run) (i : ℕ) : ℝ := r.evPlofSq (r.members i)

/-- `nplof` of observation `i` (`data_store[i, 9]`). -/
def nplofAt (r : Run) (i : ℕ) : ℝ := r.nplof (r.members i)

/-- The run dies by `sys.exit`: some cluster's sum of squared context
distances is zero (`_ssd`, loop.py:145-147; the `any()` check of
`_distances`, loop.py:132-134, fires only in a sub-case of the same
condition, since a surviving all-zero cluster would be caught in `_ssd`). -/
def halts (r : Run) : Prop :=
  ∃ c ∈ r.labels.dedup, r.ssd (clusterIndices r.labels c) = 0

instance (r : Run) : Decidable r.halts :=
  List.decidableBEx _ r.labels.dedup

/-- `fit` (loop.py:197-211) seen as a score computation: `none` when the
process exits, otherwise the scores of all observations in row order. -/
def fitScores (r : Run) : Option (List ℝ) :=
  if r.halts then none else some ((List.range r.data.length).map r.scoreAt)

end Run

/-- The `Run` corresponding to a call of `fit` on the given inputs. -/
def mkRun (data : List (List ℝ)) (extent : ℝ) (n : ℕ)
    (cluster_labels : Option (List ℤ)) : Run :=
  ⟨data, extent, n, effLabels data cluster_labels⟩

/-- The score vector produced by `fit` on the given inputs. -/
def fitScores (data : List (List ℝ)) (extent : ℝ) (n : ℕ)
    (cluster_labels : Option (List ℤ)) : Option (List ℝ) :=
  (mkRun data extent n cluster_labels).fitScores

/-! ## The object state: `__init__` and stateful `fit` -/

/-- The attributes of a `LocalOutlierProbability` instance. -/
structure LocalOutlierProbability where
  data : List (List ℝ)
  extent : ℝ
  n_neighbors : ℤ
  cluster_labels : Option (List ℤ)
  local_outlier_probabilities : Option (List ℝ)
  cluster_labels_u : Option (List ℤ)

/-- `__init__` (loop.py:67-81): stores the arguments and halts (`sys.exit`)
unless `n_neighbors > 0` and `0 < extent ≤ 1`. -/
def init (data : List (List ℝ)) (extent : ℝ) (n_neighbors : ℤ)
    (cluster_labels : Option (List ℤ)) : Option LocalOutlierProbability :=
  if ¬ n_neighbors > 0 then none
  else if ¬ (0 < extent ∧ extent ≤ 1) then none
  else some ⟨data, extent, n_neighbors, cluster_labels, none, none⟩

/-- `fit` (loop.py:197-211) as a state transformer: on success it returns
the updated instance (`_ssd` caches `cluster_labels_u = np.unique(...)`,
`fit` stores the score column) together with the returned vector. -/
def fit (s : LocalOutlierProbability) : Option (LocalOutlierProbability × List ℝ) :=
  match fitScores s.data s.extent s.n_neighbors.toNat s.cluster_labels with
  | none => none
  | some ys =>
      some ({ s with
                local_outlier_probabilities := some ys,
                cluster_labels_u :=
                  some (List.insertionSort (· ≤ ·)
                    (effLabels s.data s.cluster_labels).dedup) }, ys)

/-! ## Spec-side definitions (for refinement comparison) -/

/-- Following the spec's words (§4.1): the Euclidean distance between two
points. -/
def euclideanDist (dim : ℕ) (p q : List ℝ) : ℝ :=
  Real.sqrt (((List.range dim).map fun f => (p.getD f 0 - q.getD f 0) ^ 2).sum)

/-- Following the spec's words (§4.1): sort member `vec`'s Euclidean
distances to all cluster members ascending, exclude the zero self-distance,
take the first `n` values; their mean is the context distance. -/
def specContextDistance (dim : ℕ) (points : List (List ℝ)) (n vec : ℕ) : ℝ :=
  let ds := ((List.insertionSort (· ≤ ·)
    ((List.range points.length).map fun i =>
      euclideanDist dim (points.getD i []) (points.getD vec []))).drop 1).take n
  ds.sum / ds.length

/-! ## General helper lemmas -/

lemma getD_map_range (f : ℕ → ℝ) {n i : ℕ} (h : i < n) :
    ((List.range n).map f).getD i 0 = f i := by
  rw [List.getD_eq_getElem _ _ (by simpa using h)]
  simp

lemma getD_replicate_eq {n : ℕ} (a : ℤ) {i : ℕ} (d : ℤ) :
    (List.replicate n a).getD i d = if i < n then a else d := by
  rcases lt_or_le i n with h | h
  · rw [List.getD_eq_getElem _ _ (by simpa using h), List.getElem_replicate, if_pos h]
  · rw [List.getD_eq_default _ _ (by simpa using h), if_neg (not_lt.mpr h)]

lemma clusterIndices_replicate (n : ℕ) (a : ℤ) :
    clusterIndices (List.replicate n a) a = List.range n := by
  unfold clusterIndices
  rw [List.length_replicate]
  refine List.filter_eq_self.mpr fun i hi => ?_
  rw [List.mem_range] at hi
  simp [getD_replicate_eq, hi]

lemma replicate_run_halts (data : List (List ℝ)) (extent : ℝ) (n : ℕ) (a : ℤ) :
    (Run.mk data extent n (List.replicate data.length a)).halts ↔
      (data.length ≠ 0 ∧
        (Run.mk data extent n (List.replicate data.length a)).ssd
          (List.range data.length) = 0) := by
  rw [Run.halts]
  constructor
  · rintro ⟨c, hc, hssd⟩
    rw [show (Run.mk data extent n (List.replicate data.length a)).labels
        = List.replicate data.length a from rfl, List.mem_dedup, List.mem_replicate] at hc
    obtain ⟨hne, hca⟩ := hc
    rw [hca] at hssd
    refine ⟨hne, ?_⟩
    rw [show (Run.mk data extent n (List.replicate data.length a)).labels
        = List.replicate data.length a from rfl, clusterIndices_replicate] at hssd
    exact hssd
  · rintro ⟨hne, hssd⟩
    refine ⟨a, ?_, ?_⟩
    · rw [show (Run.mk data extent n (List.replicate data.length a)).labels
        = List.replicate data.length a from rfl, List.mem_dedup, List.mem_replicate]
      exact ⟨hne, rfl⟩
    · rw [show (Run.mk data extent n (List.replicate data.length a)).labels
        = List.replicate data.length a from rfl, clusterIndices_replicate]
      exact hssd

/-! ## Concrete evaluations

The pipeline fully evaluated on the three-point one-feature dataset
`[[0],[1],[1]]` with `extent = 1`, `n_neighbors = 2` and no cluster labels
(one cluster `0` of members `0, 1, 2`). -/

lemma labelsA : (mkRun [[0],[1],[1]] 1 2 none).labels = [0, 0, 0] := rfl

lemma membersA : clusterIndices [0, 0, 0] 0 = [0, 1, 2] := rfl

lemma cdA0 : (mkRun [[0],[1],[1]] 1 2 none).cd [0, 1, 2] 0 = 0 := by
  norm_num [mkRun, Run.cd, contextDistance, neighborhoodDistances, rowDist, trilDiff,
    Real.sqrt_sq_eq_abs, List.range_succ, pointsVector, numFeatures, effLabels,
    List.insertionSort, List.orderedInsert]

lemma cdA1 : (mkRun [[0],[1],[1]] 1 2 none).cd [0, 1, 2] 1 = 1 / 2 := by
  norm_num [mkRun, Run.cd, contextDistance, neighborhoodDistances, rowDist, trilDiff,
    Real.sqrt_sq_eq_abs, List.range_succ, pointsVector, numFeatures, effLabels,
    List.insertionSort, List.orderedInsert]

lemma cdA2 : (mkRun [[0],[1],[1]] 1 2 none).cd [0, 1, 2] 2 = 1 / 2 := by
  norm_num [mkRun, Run.cd, contextDistance, neighborhoodDistances, rowDist, trilDiff,
    Real.sqrt_sq_eq_abs, List.range_succ, pointsVector, numFeatures, effLabels,
    List.insertionSort, List.orderedInsert]

lemma ssdA : (mkRun [[0],[1],[1]] 1 2 none).ssd [0, 1, 2] = 1 / 2 := by
  norm_num [Run.ssd, List.range_succ, cdA0, cdA1, cdA2]

lemma psdA0 : (mkRun [[0],[1],[1]] 1 2 none).psd [0, 1, 2] 0 = 0 := by
  simp only [Run.psd, Run.stdDist]
  rw [cdA0, ssdA]
  norm_num

lemma psdA1 : (mkRun [[0],[1],[1]] 1 2 none).psd [0, 1, 2] 1 = 1 := by
  simp only [Run.psd, Run.stdDist]
  rw [cdA1, ssdA, (by norm_num : |(1:ℝ)/2| = 1/2)]
  norm_num [Real.sqrt_one, mkRun]

lemma psdA2 : (mkRun [[0],[1],[1]] 1 2 none).psd [0, 1, 2] 2 = 1 := by
  simp only [Run.psd, Run.stdDist]
  rw [cdA2, ssdA, (by norm_num : |(1:ℝ)/2| = 1/2)]
  norm_num [Real.sqrt_one, mkRun]

lemma evPsdA : (mkRun [[0],[1],[1]] 1 2 none).evPsd [0, 1, 2] = 2 / 3 := by
  norm_num [Run.evPsd, List.range_succ, psdA0, psdA1, psdA2]

lemma plofA0 : (mkRun [[0],[1],[1]] 1 2 none).plof [0, 1, 2] 0 = -1 := by
  norm_num [Run.plof, psdA0, evPsdA]

lemma plofA1 : (mkRun [[0],[1],[1]] 1 2 none).plof [0, 1, 2] 1 = 1 / 2 := by
  norm_num [Run.plof, psdA1, evPsdA]

lemma plofA2 : (mkRun [[0],[1],[1]] 1 2 none).plof [0, 1, 2] 2 = 1 / 2 := by
  norm_num [Run.plof, psdA2, evPsdA]

lemma evPlofSqA : (mkRun [[0],[1],[1]] 1 2 none).evPlofSq [0, 1, 2] = 1 / 2 := by
  norm_num [Run.evPlofSq, List.range_succ, plofA0, plofA1, plofA2]

lemma nplofA : (mkRun [[0],[1],[1]] 1 2 none).nplof [0, 1, 2] = Real.sqrt (1 / 2) := by
  simp only [Run.nplof]
  rw [evPlofSqA]
  norm_num [mkRun]

lemma sqrt_half_mul_sqrt_two : Real.sqrt (1 / 2) * Real.sqrt 2 = 1 := by
  rw [← Real.sqrt_mul (by norm_num : (0:ℝ) ≤ 1 / 2)]
  norm_num

lemma scoreA0 : (mkRun [[0],[1],[1]] 1 2 none).score [0, 1, 2] 0 = 0 := by
  rw [Run.score, plofA0, nplofA, sqrt_half_mul_sqrt_two]
  norm_num [erf_nonpos]

lemma scoreA1 : (mkRun [[0],[1],[1]] 1 2 none).score [0, 1, 2] 1 = erf (1 / 2) := by
  rw [Run.score, plofA1, nplofA, sqrt_half_mul_sqrt_two]
  norm_num [erf_nonneg]

lemma scoreA2 : (mkRun [[0],[1],[1]] 1 2 none).score [0, 1, 2] 2 = erf (1 / 2) := by
  rw [Run.score, plofA2, nplofA, sqrt_half_mul_sqrt_two]
  norm_num [erf_nonneg]

lemma fitA : fitScores [[0],[1],[1]] 1 2 none = some [0, erf (1 / 2), erf (1 / 2)] := by
  rw [fitScores, Run.fitScores, if_neg]
  · have h0 : (mkRun [[0],[1],[1]] 1 2 none).scoreAt 0
        = (mkRun [[0],[1],[1]] 1 2 none).score [0, 1, 2] 0 := rfl
    have h1 : (mkRun [[0],[1],[1]] 1 2 none).scoreAt 1
        = (mkRun [[0],[1],[1]] 1 2 none).score [0, 1, 2] 1 := rfl
    have h2 : (mkRun [[0],[1],[1]] 1 2 none).scoreAt 2
        = (mkRun [[0],[1],[1]] 1 2 none).score [0, 1, 2] 2 := rfl
    have hdata : (mkRun [[0],[1],[1]] 1 2 none).data = [[0],[1],[1]] := rfl
    rw [hdata]
    norm_num [List.range_succ, h0, h1, h2, scoreA0, scoreA1, scoreA2]
  · rw [Run.halts]
    rintro ⟨c, hc, hssd⟩
    rw [show (mkRun [[0],[1],[1]] 1 2 none).labels.dedup = [0] from rfl] at hc
    rw [List.mem_singleton] at hc
    subst hc
    rw [show clusterIndices (mkRun [[0],[1],[1]] 1 2 none).labels 0 = [0, 1, 2] from rfl,
      ssdA] at hssd
    norm_num at hssd

/-! Evaluations on the row-permuted dataset `[[1],[0],[1]]` (rows 0 and 1 of
`[[0],[1],[1]]` swapped). -/

lemma cdB0 : (mkRun [[1],[0],[1]] 1 2 none).cd [0, 1, 2] 0 = 0 := by
  norm_num [mkRun, Run.cd, contextDistance, neighborhoodDistances, rowDist, trilDiff,
    Real.sqrt_sq_eq_abs, List.range_succ, pointsVector, numFeatures, effLabels,
    List.insertionSort, List.orderedInsert]

lemma cdB1 : (mkRun [[1],[0],[1]] 1 2 none).cd [0, 1, 2] 1 = 1 := by
  norm_num [mkRun, Run.cd, contextDistance, neighborhoodDistances, rowDist, trilDiff,
    Real.sqrt_sq_eq_abs, List.range_succ, pointsVector, numFeatures, effLabels,
    List.insertionSort, List.orderedInsert]

lemma cdB2 : (mkRun [[1],[0],[1]] 1 2 none).cd [0, 1, 2] 2 = 1 / 2 := by
  norm_num [mkRun, Run.cd, contextDistance, neighborhoodDistances, rowDist, trilDiff,
    Real.sqrt_sq_eq_abs, List.range_succ, pointsVector, numFeatures, effLabels,
    List.insertionSort, List.orderedInsert]

lemma ssdB : (mkRun [[1],[0],[1]] 1 2 none).ssd [0, 1, 2] = 5 / 4 := by
  norm_num [Run.ssd, List.range_succ, cdB0, cdB1, cdB2]

lemma psdB0 : (mkRun [[1],[0],[1]] 1 2 none).psd [0, 1, 2] 0 = 0 := by
  simp only [Run.psd, Run.stdDist]
  rw [cdB0, ssdB]
  norm_num

lemma plofB0 : (mkRun [[1],[0],[1]] 1 2 none).plof [0, 1, 2] 0 = -1 := by
  simp only [Run.plof]
  rw [psdB0]
  norm_num

lemma scoreB0 : (mkRun [[1],[0],[1]] 1 2 none).score [0, 1, 2] 0 = 0 := by
  rw [Run.score, plofB0]
  have hden : (0:ℝ) ≤ (mkRun [[1],[0],[1]] 1 2 none).nplof [0, 1, 2] * Real.sqrt 2 := by
    refine mul_nonneg (mul_nonneg ?_ (Real.sqrt_nonneg _)) (Real.sqrt_nonneg _)
    norm_num [mkRun]
  have harg : (-1 : ℝ) / ((mkRun [[1],[0],[1]] 1 2 none).nplof [0, 1, 2] * Real.sqrt 2) ≤ 0 :=
    div_nonpos_of_nonpos_of_nonneg (by norm_num) hden
  exact max_eq_left (erf_nonpos harg)

lemma fitB : fitScores [[1],[0],[1]] 1 2 none =
    some [0, (mkRun [[1],[0],[1]] 1 2 none).scoreAt 1,
      (mkRun [[1],[0],[1]] 1 2 none).scoreAt 2] := by
  rw [fitScores, Run.fitScores, if_neg]
  · have h0 : (mkRun [[1],[0],[1]] 1 2 none).scoreAt 0
        = (mkRun [[1],[0],[1]] 1 2 none).score [0, 1, 2] 0 := rfl
    have hdata : (mkRun [[1],[0],[1]] 1 2 none).data = [[1],[0],[1]] := rfl
    rw [hdata]
    norm_num [List.range_succ, h0, scoreB0]
  · rw [Run.halts]
    rintro ⟨c, hc, hssd⟩
    rw [show (mkRun [[1],[0],[1]] 1 2 none).labels.dedup = [0] from rfl] at hc
    rw [List.mem_singleton] at hc
    subst hc
    rw [show clusterIndices (mkRun [[1],[0],[1]] 1 2 none).labels 0 = [0, 1, 2] from rfl,
      ssdB] at hssd
    norm_num at hssd

/-! Evaluations on the duplicate-point dataset `[[1],[1]]` (`n_neighbors = 1`),
whose single cluster has all context distances zero. -/

lemma cdC0 : (mkRun [[1],[1]] 1 1 none).cd [0, 1] 0 = 0 := by
  norm_num [mkRun, Run.cd, contextDistance, neighborhoodDistances, rowDist, trilDiff,
    Real.sqrt_sq_eq_abs, List.range_succ, pointsVector, numFeatures, effLabels,
    List.insertionSort, List.orderedInsert]

lemma cdC1 : (mkRun [[1],[1]] 1 1 none).cd [0, 1] 1 = 0 := by
  norm_num [mkRun, Run.cd, contextDistance, neighborhoodDistances, rowDist, trilDiff,
    Real.sqrt_sq_eq_abs, List.range_succ, pointsVector, numFeatures, effLabels,
    List.insertionSort, List.orderedInsert]

lemma ssdC : (mkRun [[1],[1]] 1 1 none).ssd [0, 1] = 0 := by
  norm_num [Run.ssd, List.range_succ, cdC0, cdC1]

/-! Evaluations on the dataset `[[0],[1],[3]]`. -/

lemma sqrt_four : Real.sqrt 4 = 2 := by
  rw [show (4:ℝ) = 2 ^ 2 by norm_num, Real.sqrt_sq (by norm_num : (0:ℝ) ≤ 2)]

lemma sqrt_nine : Real.sqrt 9 = 3 := by
  rw [show (9:ℝ) = 3 ^ 2 by norm_num, Real.sqrt_sq (by norm_num : (0:ℝ) ≤ 3)]

lemma cdD1 : (mkRun [[0],[1],[3]] 1 5 none).cd [0, 1, 2] 1 = 3 / 2 := by
  norm_num [mkRun, Run.cd, contextDistance, neighborhoodDistances, rowDist, trilDiff,
    Real.sqrt_sq_eq_abs, List.range_succ, pointsVector, numFeatures, effLabels,
    List.insertionSort, List.orderedInsert, sqrt_four, sqrt_nine]

lemma cdD2 : (mkRun [[0],[1],[3]] 1 5 none).cd [0, 1, 2] 2 = 5 / 2 := by
  norm_num [mkRun, Run.cd, contextDistance, neighborhoodDistances, rowDist, trilDiff,
    Real.sqrt_sq_eq_abs, List.range_succ, pointsVector, numFeatures, effLabels,
    List.insertionSort, List.orderedInsert, sqrt_four, sqrt_nine]

lemma cdD0 : (mkRun [[0],[1],[3]] 1 5 none).cd [0, 1, 2] 0 = 0 := by
  norm_num [mkRun, Run.cd, contextDistance, neighborhoodDistances, rowDist, trilDiff,
    Real.sqrt_sq_eq_abs, List.range_succ, pointsVector, numFeatures, effLabels,
    List.insertionSort, List.orderedInsert, sqrt_four, sqrt_nine]

lemma ssdD : (mkRun [[0],[1],[3]] 1 5 none).ssd [0, 1, 2] = 17 / 2 := by
  norm_num [Run.ssd, List.range_succ, cdD0, cdD1, cdD2]

/-! ## The claims -/

/-- C1: the claim says the neighbor-distance stage computes the pairwise
*Euclidean* distance matrix of each cluster.  It does not: `np.tril` is
applied to the 3-D difference tensor (masking features against member
positions) and the per-pair reduction is the feature-mean of absolute
differences, not the Euclidean norm.  On the one-feature dataset
`[[0],[1],[1]]` with `n_neighbors = 2`, member `0` of the single cluster
gets context distance `0` from the code, whereas the Euclidean computation
described by the spec gives `1`. -/
theorem neighbor_distances_not_euclidean :
    (mkRun [[0],[1],[1]] 1 2 none).cdAt 0 = 0 ∧
    specContextDistance 1 [[0],[1],[1]] 2 0 = 1 := by
  constructor
  · have h : (mkRun [[0],[1],[1]] 1 2 none).cdAt 0
        = (mkRun [[0],[1],[1]] 1 2 none).cd [0, 1, 2] 0 := rfl
    rw [h, cdA0]
  · norm_num [specContextDistance, euclideanDist, List.range_succ,
      List.insertionSort, List.orderedInsert, Real.sqrt_one, Real.sqrt_zero]

/-- C2: for every returned vector, entry `i` equals
`max 0 (erf (plof / (nplof * √2)))` where `plof = psd / ev_psd - 1` and
`nplof = extent * √(ev_plof_sq)`; in particular the entry is `0` whenever
`plof` is negative. -/
theorem fit_score_erf_formula (data : List (List ℝ)) (extent : ℝ) (n : ℕ)
    (lbls : Option (List ℤ)) (ys : List ℝ) (i : ℕ)
    (hfit : fitScores data extent n lbls = some ys) (hi : i < data.length)
    (hext : 0 ≤ extent) :
    ys.getD i 0 = max 0 (erf ((mkRun data extent n lbls).plofAt i /
        ((mkRun data extent n lbls).nplofAt i * Real.sqrt 2))) ∧
    (mkRun data extent n lbls).plofAt i
        = (mkRun data extent n lbls).psdAt i / (mkRun data extent n lbls).evPsdAt i - 1 ∧
    (mkRun data extent n lbls).nplofAt i
        = extent * Real.sqrt ((mkRun data extent n lbls).evPlofSqAt i) ∧
    ((mkRun data extent n lbls).plofAt i < 0 → ys.getD i 0 = 0) := by
  rw [fitScores, Run.fitScores] at hfit
  by_cases hh : (mkRun data extent n lbls).halts
  · rw [if_pos hh] at hfit
    exact absurd hfit (by simp)
  · rw [if_neg hh, Option.some.injEq] at hfit
    subst hfit
    have hgd : ((List.range (mkRun data extent n lbls).data.length).map
          (mkRun data extent n lbls).scoreAt).getD i 0
        = (mkRun data extent n lbls).scoreAt i :=
      getD_map_range _ (by exact hi)
    refine ⟨hgd, rfl, rfl, fun hneg => ?_⟩
    rw [hgd]
    have hden : 0 ≤ (mkRun data extent n lbls).nplofAt i * Real.sqrt 2 :=
      mul_nonneg (mul_nonneg hext (Real.sqrt_nonneg _)) (Real.sqrt_nonneg _)
    have harg : (mkRun data extent n lbls).plofAt i /
        ((mkRun data extent n lbls).nplofAt i * Real.sqrt 2) ≤ 0 :=
      div_nonpos_of_nonpos_of_nonneg hneg.le hden
    exact max_eq_left (erf_nonpos harg)

/-- Witness for C2: the formula evaluated at observation `0` of the run on
`[[0],[1],[1]]` (`extent = 1`, `n_neighbors = 2`, no labels), whose `plof`
is `-1 < 0` and whose score is `0`. -/
theorem fit_score_erf_formula_witness :
    ([0, erf (1 / 2), erf (1 / 2)] : List ℝ).getD 0 0
        = max 0 (erf ((mkRun [[0],[1],[1]] 1 2 none).plofAt 0 /
          ((mkRun [[0],[1],[1]] 1 2 none).nplofAt 0 * Real.sqrt 2))) ∧
    (mkRun [[0],[1],[1]] 1 2 none).plofAt 0
        = (mkRun [[0],[1],[1]] 1 2 none).psdAt 0 /
            (mkRun [[0],[1],[1]] 1 2 none).evPsdAt 0 - 1 ∧
    (mkRun [[0],[1],[1]] 1 2 none).nplofAt 0
        = 1 * Real.sqrt ((mkRun [[0],[1],[1]] 1 2 none).evPlofSqAt 0) ∧
    ((mkRun [[0],[1],[1]] 1 2 none).plofAt 0 < 0 →
        ([0, erf (1 / 2), erf (1 / 2)] : List ℝ).getD 0 0 = 0) :=
  fit_score_erf_formula [[0],[1],[1]] 1 2 none _ 0 fitA (by norm_num) (by norm_num)

/-- C3: every vector `fit` returns has one entry per input observation, and
every entry lies in `[0, 1]` (in the real-valued model no NaN exists; NaN
inputs are not representable). -/
theorem fit_output_length_and_range (data : List (List ℝ)) (extent : ℝ) (n : ℕ)
    (lbls : Option (List ℤ)) (ys : List ℝ)
    (hfit : fitScores data extent n lbls = some ys) :
    ys.length = data.length ∧ ∀ y ∈ ys, 0 ≤ y ∧ y ≤ 1 := by
  rw [fitScores, Run.fitScores] at hfit
  by_cases hh : (mkRun data extent n lbls).halts
  · rw [if_pos hh] at hfit
    exact absurd hfit (by simp)
  · rw [if_neg hh, Option.some.injEq] at hfit
    subst hfit
    constructor
    · simp [mkRun]
    · intro y hy
      simp only [List.mem_map] at hy
      obtain ⟨i, _, rfl⟩ := hy
      refine ⟨le_max_left _ _, ?_⟩
      rw [Run.scoreAt, Run.score]
      exact max_le zero_le_one (erf_le_one _)

/-- Witness for C3: the run on `[[0],[1],[1]]` returns a vector of length 3
with all entries in `[0, 1]`. -/
theorem fit_output_length_and_range_witness :
    ([0, erf (1 / 2), erf (1 / 2)] : List ℝ).length = ([[0],[1],[1]] : List (List ℝ)).length ∧
    ∀ y ∈ ([0, erf (1 / 2), erf (1 / 2)] : List ℝ), 0 ≤ y ∧ y ≤ 1 :=
  fit_output_length_and_range [[0],[1],[1]] 1 2 none _ fitA

/-- C4: the claim says `closest_neighbor_distance` is the distance to the
single nearest neighbor.  The code stores `neighborhood_distances[1:2]`,
the *second* element of the already-sliced sorted list.  On `[[0],[1],[3]]`
(`n_neighbors = 2`), member `2`'s sliced sorted distances are `[2, 3]`: the
nearest-neighbor distance is `2`, but the code stores `3`. -/
theorem closest_neighbor_not_smallest :
    (mkRun [[0],[1],[3]] 1 2 none).closestAt 2 = 3 ∧
    neighborhoodDistances 1 (pointsVector [[0],[1],[3]] [0, 1, 2]) 2 2 = [2, 3] := by
  have hnb : neighborhoodDistances 1 (pointsVector [[0],[1],[3]] [0, 1, 2]) 2 2 = [2, 3] := by
    norm_num [neighborhoodDistances, rowDist, trilDiff, List.range_succ, pointsVector,
      List.insertionSort, List.orderedInsert, sqrt_four, sqrt_nine]
  refine ⟨?_, hnb⟩
  have h : (mkRun [[0],[1],[3]] 1 2 none).closestAt 2
      = closestNeighborDistance 1 (pointsVector [[0],[1],[3]] [0, 1, 2]) 2 2 := rfl
  rw [h, closestNeighborDistance, hnb]
  norm_num

/-- Counterexample for C5: a single cluster with 3 members and
`n_neighbors = 5` is accepted by `__init__` and `fit` still produces a
score vector — the claimed configuration-time check does not exist. -/
theorem cluster_size_check_missing_cex :
    (clusterIndices (effLabels [[0],[1],[3]] none) 0).length = 3 ∧
    (clusterIndices (effLabels [[0],[1],[3]] none) 0).length ≤ 5 ∧
    (init [[0],[1],[3]] 1 5 none).isSome = true ∧
    (fitScores [[0],[1],[3]] 1 5 none).isSome = true := by
  refine ⟨rfl, ?_, ?_, ?_⟩
  · rw [show (clusterIndices (effLabels [[0],[1],[3]] none) 0).length = 3 from rfl]
    norm_num
  · rw [init, if_neg (by norm_num), if_neg (by norm_num)]
    rfl
  · rw [fitScores, Run.fitScores, if_neg]
    · rfl
    · rw [Run.halts]
      rintro ⟨c, hc, hssd⟩
      rw [show (mkRun [[0],[1],[3]] 1 5 none).labels.dedup = [0] from rfl] at hc
      rw [List.mem_singleton] at hc
      subst hc
      rw [show clusterIndices (mkRun [[0],[1],[3]] 1 5 none).labels 0 = [0, 1, 2] from rfl,
        ssdD] at hssd
      norm_num at hssd

/-- C5 (amended): `__init__` validates only `n_neighbors > 0` and
`extent ∈ (0, 1]`; no comparison of `n_neighbors` with cluster sizes is
performed anywhere, and a cluster with at most `n_neighbors` members is
processed with the at most `m - 1` available neighbor distances. -/
theorem init_accepts_iff (data : List (List ℝ)) (extent : ℝ) (nn : ℤ)
    (lbls : Option (List ℤ)) :
    (init data extent nn lbls).isSome = true ↔ (0 < nn ∧ 0 < extent ∧ extent ≤ 1) := by
  rw [init]
  by_cases h1 : nn > 0
  · rw [if_neg (not_not_intro h1)]
    by_cases h2 : 0 < extent ∧ extent ≤ 1
    · rw [if_neg (not_not_intro h2)]
      simp only [Option.isSome_some, true_iff]
      exact ⟨h1, h2.1, h2.2⟩
    · rw [if_pos h2]
      simp only [Option.isSome_none, Bool.false_eq_true, false_iff]
      intro hcon
      exact h2 ⟨hcon.2.1, hcon.2.2⟩
  · rw [if_pos h1]
    simp only [Option.isSome_none, Bool.false_eq_true, false_iff]
    intro hcon
    exact h1 hcon.1

/-- C6: if some cluster's context distances are all zero — equivalently its
sum of squared context distances is zero — the pipeline halts and no score
vector is produced. -/
theorem degenerate_cluster_halts (data : List (List ℝ)) (extent : ℝ) (n : ℕ)
    (lbls : Option (List ℤ))
    (h : ∃ c ∈ (effLabels data lbls).dedup,
        (∀ p, p < (clusterIndices (effLabels data lbls) c).length →
            (mkRun data extent n lbls).cd (clusterIndices (effLabels data lbls) c) p = 0) ∨
          (mkRun data extent n lbls).ssd (clusterIndices (effLabels data lbls) c) = 0) :
    fitScores data extent n lbls = none := by
  obtain ⟨c, hc, hdisj⟩ := h
  have hssd : (mkRun data extent n lbls).ssd (clusterIndices (effLabels data lbls) c) = 0 := by
    rcases hdisj with hall | hssd
    · apply List.sum_eq_zero
      intro x hx
      simp only [List.mem_map, List.mem_range] at hx
      obtain ⟨p, hp, rfl⟩ := hx
      rw [hall p hp]
      ring
    · exact hssd
  rw [fitScores, Run.fitScores, if_pos]
  exact ⟨c, hc, hssd⟩

/-- Witness for C6: on the duplicate-point dataset `[[1],[1]]`
(`n_neighbors = 1`) the single cluster's SSD is zero and `fit` produces no
vector. -/
theorem degenerate_cluster_halts_witness :
    (mkRun [[1],[1]] 1 1 none).ssd (clusterIndices (effLabels [[1],[1]] none) 0) = 0 ∧
    fitScores [[1],[1]] 1 1 none = none := by
  have hssd : (mkRun [[1],[1]] 1 1 none).ssd (clusterIndices (effLabels [[1],[1]] none) 0) = 0 := by
    rw [show clusterIndices (effLabels [[1],[1]] none) 0 = [0, 1] from rfl]
    exact ssdC
  exact ⟨hssd, degenerate_cluster_halts [[1],[1]] 1 1 none
    ⟨0, by decide, Or.inr hssd⟩⟩

/-- C7: a non-positive `n_neighbors` or an `extent` outside `(0, 1]` makes
`__init__` halt, so no instance exists and no distance computation can
run. -/
theorem invalid_config_rejected (data : List (List ℝ)) (extent : ℝ) (nn : ℤ)
    (lbls : Option (List ℤ)) (h : nn ≤ 0 ∨ extent ≤ 0 ∨ 1 < extent) :
    init data extent nn lbls = none := by
  rw [init]
  by_cases h1 : nn > 0
  · rw [if_neg (not_not_intro h1)]
    by_cases h2 : 0 < extent ∧ extent ≤ 1
    · exfalso
      rcases h with h | h | h
      · omega
      · exact absurd h2.1 (not_lt.mpr h)
      · exact absurd h2.2 (not_le.mpr h)
    · rw [if_pos h2]
  · rw [if_pos h1]

/-- Witness for C7: `n_neighbors = 0` is rejected. -/
theorem invalid_config_rejected_witness :
    ((0:ℤ) ≤ 0 ∨ (1:ℝ) ≤ 0 ∨ 1 < (1:ℝ)) ∧ init [[0]] 1 0 none = none :=
  ⟨Or.inl le_rfl, invalid_config_rejected [[0]] 1 0 none (Or.inl le_rfl)⟩

/-- C8: the claim says permuting the rows (and labels) permutes the scores.
It fails: swapping rows 0 and 1 of `[[0],[1],[1]]` gives `[[1],[0],[1]]`,
and the run on the swapped data is *not* the swap of the original scores —
the position-dependent `np.tril` feature mask zeroes the first cluster
member's distances, so whichever row sits at position 0 scores `0`, while
the original row 1 scores `erf (1/2) > 0`. -/
theorem fit_not_permutation_equivariant :
    fitScores [[1],[0],[1]] 1 2 none ≠
      (fitScores [[0],[1],[1]] 1 2 none).map
        fun l => [l.getD 1 0, l.getD 0 0, l.getD 2 0] := by
  intro h
  rw [fitA, fitB] at h
  have h2 : ([0, (mkRun [[1],[0],[1]] 1 2 none).scoreAt 1,
      (mkRun [[1],[0],[1]] 1 2 none).scoreAt 2] : List ℝ)
      = [erf (1 / 2), 0, erf (1 / 2)] := Option.some.inj h
  have h3 : (0 : ℝ) = erf (1 / 2) := by
    injection h2
  have hpos : 0 < erf (1 / 2) := erf_pos (by norm_num)
  linarith

/-- C9: running without cluster labels is identical to running with a
constant label vector (any single cluster id `c`). -/
theorem default_cluster_equivalence (data : List (List ℝ)) (extent : ℝ) (n : ℕ) (c : ℤ) :
    fitScores data extent n none
      = fitScores data extent n (some (List.replicate data.length c)) := by
  have h0 := replicate_run_halts data extent n 0
  have hcn := replicate_run_halts data extent n c
  have hiff : (mkRun data extent n none).halts ↔
      (mkRun data extent n (some (List.replicate data.length c))).halts :=
    Iff.trans h0 hcn.symm
  by_cases hh : (mkRun data extent n none).halts
  · rw [fitScores, fitScores, Run.fitScores, Run.fitScores, if_pos hh, if_pos (hiff.mp hh)]
  · rw [fitScores, fitScores, Run.fitScores, Run.fitScores, if_neg hh,
      if_neg (fun hx => hh (hiff.mpr hx))]
    have hmap : (List.range data.length).map (mkRun data extent n none).scoreAt
        = (List.range data.length).map
            (mkRun data extent n (some (List.replicate data.length c))).scoreAt := by
      refine List.map_congr_left fun i hi => ?_
      have hilen : i < data.length := List.mem_range.mp hi
      have hm0 : (mkRun data extent n none).members i = List.range data.length := by
        rw [Run.members, Run.label,
          show (mkRun data extent n none).labels = List.replicate data.length 0 from rfl,
          getD_replicate_eq]
        rw [show (if i < data.length then (0:ℤ) else 0) = 0 by split <;> rfl]
        exact clusterIndices_replicate data.length 0
      have hmc : (mkRun data extent n (some (List.replicate data.length c))).members i
          = List.range data.length := by
        rw [Run.members, Run.label,
          show (mkRun data extent n (some (List.replicate data.length c))).labels
            = List.replicate data.length c from rfl,
          getD_replicate_eq, if_pos hilen]
        exact clusterIndices_replicate data.length c
      rw [Run.scoreAt, Run.scoreAt, Run.pos, Run.pos, hm0, hmc]
      rfl
    exact congrArg some hmap

/-- C10: a successful `fit` leaves `data`, `extent`, `n_neighbors` and
`cluster_labels` untouched, stores the returned vector in
`local_outlier_probabilities`, and caches the sorted unique cluster ids in
`cluster_labels_u`. -/
theorem fit_frame_effect (s : LocalOutlierProbability) :
    (fit s).map (fun p => p.1.data) = (fit s).map (fun _ => s.data) ∧
    (fit s).map (fun p => p.1.extent) = (fit s).map (fun _ => s.extent) ∧
    (fit s).map (fun p => p.1.n_neighbors) = (fit s).map (fun _ => s.n_neighbors) ∧
    (fit s).map (fun p => p.1.cluster_labels) = (fit s).map (fun _ => s.cluster_labels) ∧
    (fit s).map (fun p => p.1.local_outlier_probabilities)
        = (fit s).map (fun p => some p.2) ∧
    (fit s).map (fun p => p.1.cluster_labels_u)
        = (fit s).map (fun _ => some (List.insertionSort (· ≤ ·)
            (effLabels s.data s.cluster_labels).dedup)) := by
  rw [fit]
  cases fitScores s.data s.extent s.n_neighbors.toNat s.cluster_labels <;> simp

end PyNomaly
